import Mathlib

/-!
Verification of the callback-registration program in `src/main.rs`.

The program is a single-file Rust example: a holder (`MyStruct`) owns a
fixed three-byte buffer (`data: &[u8; 3]`) and an ordered registry of
callbacks (`callbacks: Vec<MyCallback<MyCallbackData>>`).  `set_callback`
pushes a callback onto the registry; `do_something` iterates the registry
in order and, for each entry, builds a `MyCallbackData` view of the
buffer, invokes the callback on it, then calls `process_data` on the
same bytes.  `process_data` and the one callback registered by `main`
both print a line to stdout.

Shallow embedding choices:
* `u8` values are modelled as `Nat` (no arithmetic is ever performed on
  the bytes, so the 0..255 range is irrelevant to every property below).
* The fixed-size array type `[u8; 3]` is modelled as the subtype of
  lists of length 3.
* A closure `Box<dyn Fn(&MyCallbackData)>` has printing to stdout as its
  only possible observable effect in this program, so a callback is
  modelled as a function from the view it receives to the list of lines
  it prints.
* Effectful execution is modelled by an event trace: `do_something`
  returns the (unchanged, since the receiver is `&self`) state paired
  with the list of events it performs, in order: each callback
  invocation, each line printed, and each `process_data` call.
-/

/-- A `u8` value, modelled as a natural number. -/
abbrev Byte := Nat

/-- `struct MyCallbackData<'a> { data: &'a [u8] }`: a read-only view of
a byte slice handed to a callback. -/
structure MyCallbackData where
  data : List Byte
deriving DecidableEq

/-- `struct MyCallback<T> { callback: Box<dyn Fn(&T)> }`, at the only
instantiation the program uses, `T = MyCallbackData`.  The closure's
observable effect is the list of stdout lines it prints on a given view. -/
structure MyCallback where
  callback : MyCallbackData → List String

/-- `struct MyStruct<'a, T> { callbacks: Vec<MyCallback<T>>, data: &'a [u8; 3] }`
at `T = MyCallbackData`: the ordered callback registry plus the fixed
three-byte buffer. -/
structure MyStruct where
  callbacks : List MyCallback
  data : { l : List Byte // l.length = 3 }

/-- Rust's `Debug` formatting of a byte slice, as produced by the
`{:?}` format specifier: `[1, 2, 3]`. -/
def rustDebugBytes (l : List Byte) : String :=
  "[" ++ String.intercalate ", " (l.map toString) ++ "]"

/-- Rust's derived `Debug` formatting of `MyCallbackData`:
`MyCallbackData \x7b data: [1, 2, 3] \x7d`. -/
def MyCallbackData.rustDebug (d : MyCallbackData) : String :=
  "MyCallbackData \x7b data: " ++ rustDebugBytes d.data ++ " \x7d"

/-- `fn process_data(data: &[u8])`: prints one line,
`println!("Processing data: \x7b:?\x7d", data)`.  Its observable effect
is that single stdout line. -/
def process_data (data : List Byte) : List String :=
  ["Processing data: " ++ rustDebugBytes data]

/-- One observable step of the program. -/
inductive Event where
  /-- A registered callback was invoked with the given view. -/
  | invoke (cb : MyCallback) (arg : MyCallbackData)
  /-- A line was written to stdout. -/
  | print (line : String)
  /-- `process_data` was called on the given bytes. -/
  | processCall (data : List Byte)

/-- The body of `do_something`'s `for cb in &self.callbacks` loop: for
each callback in order, build `cb_data = MyCallbackData { data: self.data }`,
invoke the callback on it (recording the lines it prints), then call
`process_data(cb_data.data)` (recording the line it prints). -/
def dispatchLoop (data : List Byte) : List MyCallback → List Event
  | [] => []
  | cb :: rest =>
      let cb_data : MyCallbackData := ⟨data⟩
      Event.invoke cb cb_data
        :: (cb.callback cb_data).map Event.print
        ++ Event.processCall cb_data.data
        :: (process_data cb_data.data).map Event.print
        ++ dispatchLoop data rest

/-- `fn do_something(&self)`: runs the dispatch loop over the registry.
The receiver is an immutable borrow, so the state is returned unchanged;
the second component is the trace of events performed. -/
def do_something (s : MyStruct) : MyStruct × List Event :=
  (s, dispatchLoop s.data.val s.callbacks)

/-- `fn set_callback(&mut self, cb: MyCallback<..>) { self.callbacks.push(cb); }`:
appends the callback at the end of the registry.  `Vec::push` is
infallible, and so is this total function. -/
def set_callback (s : MyStruct) (cb : MyCallback) : MyStruct :=
  { s with callbacks := s.callbacks ++ [cb] }

/-- The callback registered by `main`: prints
`println!("Callback called with data \x7b:?\x7d", data)`, the derived
`Debug` representation of the `MyCallbackData` it receives. -/
def mainCallback : MyCallback :=
  ⟨fun d => ["Callback called with data " ++ d.rustDebug]⟩

/-- `fn main()`: builds a `MyStruct` with an empty registry and buffer
`&[1, 2, 3]`, registers `mainCallback` via `set_callback`, and calls
`do_something` once.  Result: final state and trace of that dispatch.
(Named `mainProgram` because Lean reserves `main` for an `IO` entry point.) -/
def mainProgram : MyStruct × List Event :=
  let s : MyStruct := { callbacks := [], data := ⟨[1, 2, 3], rfl⟩ }
  let s := set_callback s mainCallback
  do_something s

/-- The callbacks invoked along a trace, in invocation order and with
multiplicity. -/
def invokedCallbacks (tr : List Event) : List MyCallback :=
  tr.filterMap fun e =>
    match e with
    | Event.invoke cb _ => some cb
    | _ => none

/-- The views passed to callback invocations along a trace, in order. -/
def invokedViews (tr : List Event) : List MyCallbackData :=
  tr.filterMap fun e =>
    match e with
    | Event.invoke _ arg => some arg
    | _ => none

/-- The arguments of the `process_data` calls along a trace, in order. -/
def processedDatas (tr : List Event) : List (List Byte) :=
  tr.filterMap fun e =>
    match e with
    | Event.processCall d => some d
    | _ => none

/-- The stdout lines produced along a trace, in order. -/
def outputLines (tr : List Event) : List String :=
  tr.filterMap fun e =>
    match e with
    | Event.print line => some line
    | _ => none

/-- A trace restricted to its control events (callback invocations and
`process_data` calls), dropping the printed lines. -/
def controlEvents (tr : List Event) : List Event :=
  tr.filterMap fun e =>
    match e with
    | Event.print _ => none
    | e => some e

/-- A concrete callback that prints nothing, used to exercise the
dispatch theorems on concrete inputs. -/
def probeCallback : MyCallback :=
  ⟨fun _ => []⟩

/-- A concrete holder: buffer `[1, 2, 3]`, one silent callback. -/
def probeStruct : MyStruct :=
  { callbacks := [probeCallback], data := ⟨[1, 2, 3], rfl⟩ }

/-- Generic shape of a `dispatchLoop` trace under any projection that
ignores printed lines: per registered callback, whatever the projection
extracts from its invocation event and then from its `process_data`
call event. -/
lemma filterMap_dispatchLoop {α : Type} (f : Event → Option α)
    (hprint : ∀ line, f (Event.print line) = none)
    (data : List Byte) (cbs : List MyCallback) :
    List.filterMap f (dispatchLoop data cbs)
      = cbs.flatMap fun cb =>
          (f (Event.invoke cb ⟨data⟩)).toList ++ (f (Event.processCall data)).toList := by
  induction cbs with
  | nil => rfl
  | cons cb rest ih =>
      have hmap : ∀ ls : List String,
          List.filterMap f (ls.map Event.print) = [] := by
        intro ls
        rw [List.filterMap_eq_nil_iff]
        intro e he
        obtain ⟨line, _, rfl⟩ := List.mem_map.mp he
        exact hprint line
      simp only [dispatchLoop, List.filterMap_cons, List.filterMap_append, hmap,
        List.flatMap_cons, ih]
      cases f (Event.invoke cb ⟨data⟩) <;> cases f (Event.processCall data) <;>
        simp [Option.toList]

lemma invokedCallbacks_dispatchLoop (data : List Byte) (cbs : List MyCallback) :
    invokedCallbacks (dispatchLoop data cbs) = cbs := by
  rw [invokedCallbacks, filterMap_dispatchLoop _ (fun _ => rfl)]
  induction cbs with
  | nil => rfl
  | cons cb rest ih => simp only [List.flatMap_cons, ih]; rfl

lemma invokedViews_dispatchLoop (data : List Byte) (cbs : List MyCallback) :
    invokedViews (dispatchLoop data cbs) = cbs.map fun _ => ⟨data⟩ := by
  rw [invokedViews, filterMap_dispatchLoop _ (fun _ => rfl)]
  induction cbs with
  | nil => rfl
  | cons cb rest ih => simp only [List.flatMap_cons, ih]; rfl

lemma processedDatas_dispatchLoop (data : List Byte) (cbs : List MyCallback) :
    processedDatas (dispatchLoop data cbs) = cbs.map fun _ => data := by
  rw [processedDatas, filterMap_dispatchLoop _ (fun _ => rfl)]
  induction cbs with
  | nil => rfl
  | cons cb rest ih => simp only [List.flatMap_cons, ih]; rfl

lemma controlEvents_dispatchLoop (data : List Byte) (cbs : List MyCallback) :
    controlEvents (dispatchLoop data cbs)
      = cbs.flatMap fun cb =>
          [Event.invoke cb ⟨data⟩, Event.processCall data] := by
  rw [controlEvents, filterMap_dispatchLoop _ (fun _ => rfl)]
  induction cbs with
  | nil => rfl
  | cons cb rest ih => simp only [List.flatMap_cons, ih]; rfl

/-- Any view handed to a callback invocation during a dispatch is the
holder's buffer. -/
lemma view_of_invoke_mem (s : MyStruct) (cb : MyCallback) (arg : MyCallbackData)
    (h : Event.invoke cb arg ∈ (do_something s).2) : arg.data = s.data.val := by
  have harg : arg ∈ invokedViews (do_something s).2 :=
    List.mem_filterMap.mpr ⟨Event.invoke cb arg, h, rfl⟩
  rw [do_something, invokedViews_dispatchLoop] at harg
  obtain ⟨_, _, rfl⟩ := List.mem_map.mp harg
  rfl

/-- C1: `do_something` invokes exactly the registered callbacks, each
exactly once, in registration order, with duplicates preserved and
nothing removed: the list of invoked callbacks equals the registry
itself. -/
theorem do_something_invokes_in_order (s : MyStruct) :
    invokedCallbacks (do_something s).2 = s.callbacks := by
  simpa [do_something] using invokedCallbacks_dispatchLoop s.data.val s.callbacks

/-- C2: `set_callback` appends the callback at the end of the registry,
growing it by exactly one; it is a total function (it never fails); and
neither holder operation shrinks the registry: `set_callback` extends it
and `do_something` leaves it untouched. -/
theorem set_callback_appends (s : MyStruct) (cb : MyCallback) :
    (set_callback s cb).callbacks = s.callbacks ++ [cb]
    ∧ (set_callback s cb).callbacks.length = s.callbacks.length + 1
    ∧ (do_something s).1.callbacks = s.callbacks :=
  ⟨rfl, by simp [set_callback], rfl⟩

/-- C3: during one dispatch, the view passed to every invoked callback
equals the holder's buffer contents at dispatch time; hence all
callbacks invoked by that dispatch observe the same bytes. -/
theorem dispatch_views_eq_buffer (s : MyStruct) (cb cb' : MyCallback)
    (arg arg' : MyCallbackData)
    (h : Event.invoke cb arg ∈ (do_something s).2)
    (h' : Event.invoke cb' arg' ∈ (do_something s).2) :
    arg.data = s.data.val ∧ arg.data = arg'.data := by
  rw [view_of_invoke_mem s cb arg h, view_of_invoke_mem s cb' arg' h']
  exact ⟨rfl, rfl⟩

theorem dispatch_views_eq_buffer_witness :
    (MyCallbackData.mk [1, 2, 3]).data = probeStruct.data.val
    ∧ (MyCallbackData.mk [1, 2, 3]).data = (MyCallbackData.mk [1, 2, 3]).data :=
  dispatch_views_eq_buffer probeStruct probeCallback probeCallback ⟨[1, 2, 3]⟩ ⟨[1, 2, 3]⟩
    (by simp [do_something, probeStruct, dispatchLoop])
    (by simp [do_something, probeStruct, dispatchLoop])

/-- C4: `do_something` takes its receiver by immutable borrow: it leaves
the registry and the buffer unchanged, so dispatching twice from a state
passes through the same state and the second dispatch behaves exactly
like the first. -/
theorem do_something_idempotent_in_state (s : MyStruct) :
    (do_something s).1.callbacks = s.callbacks
    ∧ (do_something s).1.data = s.data
    ∧ do_something (do_something s).1 = do_something s :=
  ⟨rfl, rfl, rfl⟩

/-- C5: with buffer `[1, 2, 3]` and an empty registry, dispatch produces
an empty trace: no callback invocation, no `process_data` call, no
output. -/
theorem dispatch_without_callbacks_silent :
    (do_something { callbacks := [], data := ⟨[1, 2, 3], rfl⟩ }).2 = [] :=
  rfl

/-- C6 counterexample: `process_data` is not a no-op — on input
`[1, 2, 3]` it prints a line, so its observable output is nonempty. -/
theorem process_data_not_silent : process_data [1, 2, 3] ≠ [] := by
  simp [process_data]

/-- C6 (amended): after invoking each callback, dispatch forwards the
callback's data (the buffer) to `process_data`; `process_data` is not a
no-op: on every input it prints exactly one line, `Processing data: `
followed by the debug rendering of the bytes, and has no other effect. -/
theorem dispatch_forwards_to_process_data (s : MyStruct) (data : List Byte) :
    processedDatas (do_something s).2 = s.callbacks.map (fun _ => s.data.val)
    ∧ process_data data = ["Processing data: " ++ rustDebugBytes data] := by
  refine ⟨?_, rfl⟩
  simpa [do_something] using processedDatas_dispatchLoop s.data.val s.callbacks

/-- C7: `main` builds one holder with buffer `[1, 2, 3]`, registers
exactly one callback (the debug-printing one), dispatches once, and —
being a pure function of no inputs, with no flags, environment or
persisted state in the model — always produces the same console output:
the callback's line followed by the `process_data` line. -/
theorem mainProgram_behavior :
    mainProgram.1.callbacks.length = 1
    ∧ mainProgram.1.data.val = [1, 2, 3]
    ∧ invokedCallbacks mainProgram.2 = [mainCallback]
    ∧ outputLines mainProgram.2 =
        ["Callback called with data MyCallbackData \x7b data: [1, 2, 3] \x7d",
         "Processing data: [1, 2, 3]"] :=
  ⟨rfl, rfl, rfl, rfl⟩

/-- C8 counterexample: no holder has the four-byte buffer
`[1, 2, 3, 4]` — the buffer field has the fixed-size type `[u8; 3]`, so
a holder with a buffer of length other than 3 cannot be constructed. -/
theorem no_holder_with_four_byte_buffer :
    ¬ ∃ s : MyStruct, s.data.val = [1, 2, 3, 4] := by
  rintro ⟨s, h⟩
  have hl := s.data.property
  rw [h] at hl
  simp at hl

/-- C8 (amended): for a holder whose buffer has the fixed length 3 (a
four-byte buffer such as `[1, 2, 3, 4]` is not constructible) with two
registered callbacks, dispatch invokes both, the first-registered
callback first. -/
theorem dispatch_two_callbacks_in_order (cb1 cb2 : MyCallback)
    (d : { l : List Byte // l.length = 3 }) :
    invokedCallbacks (do_something { callbacks := [cb1, cb2], data := d }).2
      = [cb1, cb2] := by
  simpa [do_something] using invokedCallbacks_dispatchLoop d.val [cb1, cb2]

/-- C9: the buffer of every holder has length exactly 3 (it models the
fixed-size reference `&[u8; 3]`), and consequently every view passed to
a callback during a dispatch has length exactly 3. -/
theorem buffer_and_views_length_three (s : MyStruct) (cb : MyCallback)
    (arg : MyCallbackData)
    (h : Event.invoke cb arg ∈ (do_something s).2) :
    s.data.val.length = 3 ∧ arg.data.length = 3 := by
  refine ⟨s.data.property, ?_⟩
  rw [view_of_invoke_mem s cb arg h]
  exact s.data.property

theorem buffer_and_views_length_three_witness :
    probeStruct.data.val.length = 3 ∧ (MyCallbackData.mk [1, 2, 3]).data.length = 3 :=
  buffer_and_views_length_three probeStruct probeCallback ⟨[1, 2, 3]⟩
    (by simp [do_something, probeStruct, dispatchLoop])

/-- C10: dispatch is a single structurally recursive pass over the
finite registry (hence terminates on every holder state — `dispatchLoop`
is a total function), and its control trace is exactly one callback
invocation followed immediately by one `process_data` call per
registered callback, in registry order. -/
theorem dispatch_one_process_call_per_callback (s : MyStruct) :
    controlEvents (do_something s).2
      = s.callbacks.flatMap
          (fun cb => [Event.invoke cb ⟨s.data.val⟩, Event.processCall s.data.val])
    ∧ (invokedCallbacks (do_something s).2).length = s.callbacks.length
    ∧ (processedDatas (do_something s).2).length = s.callbacks.length := by
  refine ⟨?_, ?_, ?_⟩
  · simpa [do_something] using controlEvents_dispatchLoop s.data.val s.callbacks
  · rw [do_something, invokedCallbacks_dispatchLoop]
  · rw [do_something, processedDatas_dispatchLoop, List.length_map]
